import Mathlib

/-!
Shallow embedding of the mididings parameter-normalization layer
(src/mididings/util.py) and the typed event-attribute view
(src/mididings/event.py).

Python integers are modelled as `Int`, byte sequences as `List Nat`,
strings as `String`/`List Char`.  Functions that can raise are modelled
with `Option`/`Except`.  The process-wide configuration values
(`data_offset`, `octave_offset`, `_in_portnames`, `_out_portnames`) are
passed explicitly to each function that reads them.
-/

/-! ### Python decimal integer formatting and parsing

`natReprChars`/`intReprChars` model Python `str` applied to an integer
(used by `note_name`); `pyIntOfChars` models Python `int` applied to a
string of an optional sign followed by decimal digits (used by
`note_number`; the tolerance of `int` for surrounding whitespace and a
leading plus sign is not modelled, no caller in util.py produces such
strings). -/

/-- The character of a single decimal digit. -/
def digitChar (d : Nat) : Char := Char.ofNat (48 + d)

/-- Decimal digit characters of a natural number, most significant first. -/
def natReprChars (n : Nat) : List Char :=
  if n = 0 then ['0'] else ((Nat.digits 10 n).map digitChar).reverse

/-- Python `str` of an integer: optional minus sign, then decimal digits. -/
def intReprChars (k : Int) : List Char :=
  if k < 0 then '-' :: natReprChars k.natAbs else natReprChars k.natAbs

/-- Value of a nonempty string of decimal digits. -/
def digitsVal (cs : List Char) : Option Nat :=
  if cs ≠ [] ∧ cs.all Char.isDigit then
    some (Nat.ofDigits 10 ((cs.map fun c => c.toNat - 48).reverse))
  else none

/-- Python `int` on a decimal string: optional minus sign, then digits. -/
def pyIntOfChars (cs : List Char) : Option Int :=
  if cs.headD 'x' = '-' then Option.map (fun m : Nat => -(m : Int)) (digitsVal cs.tail)
  else Option.map (fun m : Nat => (m : Int)) (digitsVal cs)

theorem digitChar_facts (d : Nat) (hd : d < 10) :
    Char.toLower (digitChar d) = digitChar d ∧ (digitChar d).isDigit = true ∧
      (digitChar d).toNat - 48 = d := by
  interval_cases d <;> exact ⟨by decide, by decide, by decide⟩

theorem natReprChars_spec (n : Nat) :
    natReprChars n ≠ [] ∧ ∀ c ∈ natReprChars n, ∃ d, d < 10 ∧ c = digitChar d := by
  unfold natReprChars
  by_cases h : n = 0
  · rw [if_pos h]
    refine ⟨by decide, ?_⟩
    intro c hc
    simp only [List.mem_singleton] at hc
    exact ⟨0, by decide, by rw [hc]; decide⟩
  · rw [if_neg h]
    constructor
    · simp [Nat.digits_ne_nil_iff_ne_zero.mpr h]
    · intro c hc
      rw [List.mem_reverse] at hc
      obtain ⟨d, hdm, rfl⟩ := List.mem_map.mp hc
      exact ⟨d, Nat.digits_lt_base (by norm_num) hdm, rfl⟩

theorem digitsVal_natReprChars (n : Nat) : digitsVal (natReprChars n) = some n := by
  by_cases h : n = 0
  · subst h; decide
  · unfold natReprChars digitsVal
    rw [if_neg h]
    have hmem : ∀ c ∈ ((Nat.digits 10 n).map digitChar).reverse, ∃ d, d < 10 ∧ c = digitChar d := by
      have := (natReprChars_spec n).2
      unfold natReprChars at this
      rwa [if_neg h] at this
    have hne : ((Nat.digits 10 n).map digitChar).reverse ≠ [] := by
      have := (natReprChars_spec n).1
      unfold natReprChars at this
      rwa [if_neg h] at this
    have hall : (((Nat.digits 10 n).map digitChar).reverse.all Char.isDigit) = true := by
      rw [List.all_eq_true]
      intro c hc
      obtain ⟨d, hd, rfl⟩ := hmem c hc
      exact (digitChar_facts d hd).2.1
    rw [if_pos ⟨hne, hall⟩]
    congr 1
    have hmap : ((Nat.digits 10 n).map digitChar).map (fun c => c.toNat - 48) =
        Nat.digits 10 n := by
      rw [List.map_map]
      have : ∀ d ∈ Nat.digits 10 n,
          ((fun c => c.toNat - 48) ∘ digitChar) d = id d := by
        intro d hd
        exact (digitChar_facts d (Nat.digits_lt_base (by norm_num) hd)).2.2
      rw [List.map_congr_left this, List.map_id]
    rw [List.map_reverse, List.reverse_reverse, hmap, Nat.ofDigits_digits]

theorem pyIntOfChars_intReprChars (k : Int) : pyIntOfChars (intReprChars k) = some k := by
  unfold intReprChars
  by_cases hk : k < 0
  · rw [if_pos hk]
    unfold pyIntOfChars
    simp [digitsVal_natReprChars, abs_of_neg hk]
  · rw [if_neg hk]
    obtain ⟨hne, hmem⟩ := natReprChars_spec k.natAbs
    obtain ⟨c, t, hct⟩ : ∃ c t, natReprChars k.natAbs = c :: t := by
      cases hcs : natReprChars k.natAbs with
      | nil => exact absurd hcs hne
      | cons c t => exact ⟨c, t, rfl⟩
    have hcd : c.isDigit = true := by
      obtain ⟨d, hd, rfl⟩ := hmem c (by rw [hct]; exact List.mem_cons_self c t)
      exact (digitChar_facts d hd).2.1
    have hcne : ¬((natReprChars k.natAbs).headD 'x' = '-') := by
      rw [hct]
      simp only [List.headD_cons]
      intro hEq
      rw [hEq] at hcd
      exact absurd hcd (by decide)
    unfold pyIntOfChars
    rw [if_neg hcne, digitsVal_natReprChars]
    simp only [Option.map_some']
    congr 1
    omega

/-! ### Offset translation (util.py: NoDataOffset, offset, actual)

`IntLike` models a Python value that is either a plain `int` or an
instance of the `int` subclass `NoDataOffset`.  Python `==` between such
values compares the underlying integers, which `IntLike.toInt` extracts. -/

/-- A Python integer: plain `int`, or the `NoDataOffset` subclass of `int`. -/
inductive IntLike
  | int (n : Int)
  | noDataOffset (n : Int)
deriving DecidableEq

/-- The numeric value of an `IntLike` (what Python `int(n)` returns). -/
def IntLike.toInt : IntLike → Int
  | .int n => n
  | .noDataOffset n => n

/-- util.offset: `return n + _setup.get_config('data_offset')`.
Python `int.__add__` returns a plain `int` even when `n` is a
`NoDataOffset`, so the result is always a plain integer. -/
def offset (data_offset : Int) (n : IntLike) : Int :=
  n.toInt + data_offset

/-- util.actual: returns `int(n)` when `n` is a `NoDataOffset`, else
`n - _setup.get_config('data_offset')`. -/
def actual (data_offset : Int) (n : IntLike) : Int :=
  match n with
  | .noDataOffset m => m
  | .int m => m - data_offset

/-! ### Note names and numbers (util.py: _NOTE_NUMBERS, _NOTE_NAMES,
note_number, note_limit, note_name, note_range) -/

/-- util._NOTE_NUMBERS: note-name to semitone table, with flat aliases. -/
def _NOTE_NUMBERS : List (String × Int) :=
  [("c", 0),
   ("c#", 1), ("db", 1),
   ("d", 2),
   ("d#", 3), ("eb", 3),
   ("e", 4),
   ("f", 5),
   ("f#", 6), ("gb", 6),
   ("g", 7),
   ("g#", 8), ("ab", 8),
   ("a", 9),
   ("a#", 10), ("bb", 10),
   ("b", 11)]

/-- util._NOTE_NAMES: semitone to canonical (sharp) name table. -/
def _NOTE_NAMES : List (Int × String) :=
  [(0, "c"), (1, "c#"), (2, "d"), (3, "d#"), (4, "e"), (5, "f"),
   (6, "f#"), (7, "g"), (8, "g#"), (9, "a"), (10, "a#"), (11, "b")]

/-- A Python value passed as a note description: an `int` or a `str`. -/
inductive NoteDesc
  | int (n : Int)
  | str (s : String)

/-- The `for i in range(len(note)): if note[i].isdigit() or note[i] == '-':
break` loop of note_number: split the string at the first digit or minus
character.  When no such character exists the Python fallback (`i` stuck at
`len(note) - 1`, or unbound for the empty string) always ends in the
`except` branch raising ValueError, so it is modelled as `none`. -/
def noteSplit : List Char → Option (List Char × List Char)
  | [] => none
  | c :: rest =>
    if c.isDigit || c == '-' then some ([], c :: rest)
    else Option.map (fun pr => (c :: pr.1, pr.2)) (noteSplit rest)

/-- The body of note_number for a string: lowercase, split at the first
digit or minus, look the name part up in `_NOTE_NUMBERS`, parse the octave
part with `int`, and combine with the configured octave offset.  For an
integer the raw value is the integer itself. -/
def noteParseRaw (octave_offset : Int) : NoteDesc → Option Int
  | .int n => some n
  | .str s =>
    match noteSplit (s.data.map Char.toLower) with
    | none => none
    | some pr =>
      match List.lookup (String.mk pr.1) _NOTE_NUMBERS, pyIntOfChars pr.2 with
      | some v, some o => some (v + (o + octave_offset) * 12)
      | _, _ => none

/-- util.note_number: parse, then range-check against `[0, 128)`
(`[0, 129)` with `allow_end`, as in note_limit). -/
def note_number (octave_offset : Int) (allow_end : Bool) (note : NoteDesc) : Option Int :=
  match noteParseRaw octave_offset note with
  | none => none
  | some r =>
    if 0 ≤ r ∧ r < (if allow_end then 129 else 128) then some r else none

/-- util.note_limit: `note_number(note, allow_end=True)`. -/
def note_limit (octave_offset : Int) (note : NoteDesc) : Option Int :=
  note_number octave_offset true note

/-- Name of semitone `r` in `_NOTE_NAMES` (total function; `r` is always
`note % 12` so the Python dict lookup cannot fail). -/
def noteNameOf (r : Int) : String :=
  (List.lookup r _NOTE_NAMES).getD ""

/-- util.note_name: `_NOTE_NAMES[note % 12] + str(note // 12 -
_setup.get_config('octave_offset'))`.  Python `%` and `//` on a positive
divisor agree with `Int.emod` and `Int.ediv`. -/
def note_name (octave_offset : Int) (note : Int) : String :=
  String.mk ((noteNameOf (Int.emod note 12)).data ++
    intReprChars (Int.ediv note 12 - octave_offset))

/-- Python `notes.split(':', 1)` on a list of characters, as used by
note_range; `none` when no colon occurs (Python then hits an IndexError
turned into ValueError). -/
def splitColon : List Char → Option (List Char × List Char)
  | [] => none
  | c :: rest =>
    if c = ':' then some ([], rest)
    else Option.map (fun pr => (c :: pr.1, pr.2)) (splitColon rest)

/-- A Python value passed as a note range: a single note description or a
tuple of two note descriptions. -/
inductive NoteSpec
  | int (n : Int)
  | str (s : String)
  | pair (a b : NoteDesc)

/-- util.note_range: first try the value as a single note, producing
`(n, n + 1)`; otherwise a tuple is resolved entrywise via note_limit and a
string is split at the first colon, empty sides defaulting to 0.  All
error paths (ValueError, IndexError, TypeError) are collapsed to `none`. -/
def note_range (octave_offset : Int) : NoteSpec → Option (Int × Int)
  | .int n =>
    match note_number octave_offset false (.int n) with
    | some m => some (m, m + 1)
    | none => none
  | .str s =>
    match note_number octave_offset false (.str s) with
    | some m => some (m, m + 1)
    | none =>
      match splitColon s.data with
      | none => none
      | some pr =>
        match (if pr.1.isEmpty then some 0 else
                 note_limit octave_offset (.str (String.mk pr.1))),
              (if pr.2.isEmpty then some 0 else
                 note_limit octave_offset (.str (String.mk pr.2))) with
        | some lower, some upper => some (lower, upper)
        | _, _ => none
  | .pair a b =>
    match note_limit octave_offset a, note_limit octave_offset b with
    | some lower, some upper => some (lower, upper)
    | _, _ => none

/-! ### Round-trip lemmas for note_name / note_number -/

theorem map_eq_self_of_fixed (f : Char → Char) (l : List Char)
    (h : ∀ c ∈ l, f c = c) : l.map f = l := by
  induction l with
  | nil => rfl
  | cons a t ih =>
    rw [List.map_cons, h a (List.mem_cons_self a t),
      ih fun c hc => h c (List.mem_cons_of_mem a hc)]

theorem toLower_intReprChars (k : Int) :
    (intReprChars k).map Char.toLower = intReprChars k := by
  apply map_eq_self_of_fixed
  intro c hc
  unfold intReprChars at hc
  have hnat : ∀ c ∈ natReprChars k.natAbs, Char.toLower c = c := by
    intro c hc
    obtain ⟨d, hd, rfl⟩ := (natReprChars_spec k.natAbs).2 c hc
    exact (digitChar_facts d hd).1
  by_cases hk : k < 0
  · rw [if_pos hk] at hc
    rcases List.mem_cons.mp hc with h | h
    · rw [h]; decide
    · exact hnat c h
  · rw [if_neg hk] at hc
    exact hnat c hc

theorem intReprChars_head (k : Int) :
    ∃ c t, intReprChars k = c :: t ∧ (c.isDigit || c == '-') = true := by
  unfold intReprChars
  by_cases hk : k < 0
  · exact ⟨'-', natReprChars k.natAbs, by rw [if_pos hk], by decide⟩
  · rw [if_neg hk]
    obtain ⟨hne, hmem⟩ := natReprChars_spec k.natAbs
    cases hcs : natReprChars k.natAbs with
    | nil => exact absurd hcs hne
    | cons c t =>
      obtain ⟨d, hd, rfl⟩ := hmem c (by rw [hcs]; exact List.mem_cons_self c t)
      exact ⟨digitChar d, t, rfl, by rw [(digitChar_facts d hd).2.1, Bool.true_or]⟩

theorem noteSplit_append (l₁ : List Char) (c : Char) (l₂ : List Char)
    (h1 : ∀ x ∈ l₁, (x.isDigit || x == '-') = false)
    (h2 : (c.isDigit || c == '-') = true) :
    noteSplit (l₁ ++ c :: l₂) = some (l₁, c :: l₂) := by
  induction l₁ with
  | nil => simp [noteSplit, h2]
  | cons a t ih =>
    have ha := h1 a (List.mem_cons_self a t)
    rw [List.cons_append]
    unfold noteSplit
    rw [ha]
    simp only [Bool.false_eq_true, if_false,
      ih fun x hx => h1 x (List.mem_cons_of_mem a hx), Option.map_some']

theorem noteNameOf_spec (r : Int) (h0 : 0 ≤ r) (h1 : r < 12) :
    (noteNameOf r).data.map Char.toLower = (noteNameOf r).data ∧
    (∀ c ∈ (noteNameOf r).data, (c.isDigit || c == '-') = false) ∧
    List.lookup (String.mk (noteNameOf r).data) _NOTE_NUMBERS = some r := by
  interval_cases r <;> exact ⟨by decide, by decide, by decide⟩

theorem noteParseRaw_eq (octave_offset : Int) (name oct : List Char) (v q : Int)
    (hmap : (name ++ oct).map Char.toLower = name ++ oct)
    (hsplit : noteSplit (name ++ oct) = some (name, oct))
    (hlook : List.lookup (String.mk name) _NOTE_NUMBERS = some v)
    (hoct : pyIntOfChars oct = some q) :
    noteParseRaw octave_offset (.str (String.mk (name ++ oct))) =
      some (v + (q + octave_offset) * 12) := by
  show (match noteSplit ((name ++ oct).map Char.toLower) with
    | none => none
    | some pr =>
      match List.lookup (String.mk pr.1) _NOTE_NUMBERS, pyIntOfChars pr.2 with
      | some v, some o => some (v + (o + octave_offset) * 12)
      | _, _ => none) = some (v + (q + octave_offset) * 12)
  rw [hmap, hsplit]
  show (match List.lookup (String.mk name) _NOTE_NUMBERS, pyIntOfChars oct with
    | some v, some o => some (v + (o + octave_offset) * 12)
    | _, _ => none) = some (v + (q + octave_offset) * 12)
  rw [hlook, hoct]

/-- C6: for every integer note number in `[0, 128)` and every configured
octave offset, formatting with note_name (sharp spelling plus octave) and
parsing back with note_number returns the original number. -/
theorem note_number_note_name_roundtrip (octave_offset n : Int)
    (h0 : 0 ≤ n) (h1 : n < 128) :
    note_number octave_offset false (.str (note_name octave_offset n)) = some n := by
  have hr0 : 0 ≤ Int.emod n 12 := Int.emod_nonneg n (by norm_num)
  have hr1 : Int.emod n 12 < 12 := Int.emod_lt_of_pos n (by norm_num)
  obtain ⟨hlow, hfail, hlook⟩ := noteNameOf_spec (Int.emod n 12) hr0 hr1
  obtain ⟨c, t, hct, hc⟩ := intReprChars_head (Int.ediv n 12 - octave_offset)
  have hmap : ((noteNameOf (Int.emod n 12)).data ++
      intReprChars (Int.ediv n 12 - octave_offset)).map Char.toLower =
      (noteNameOf (Int.emod n 12)).data ++ intReprChars (Int.ediv n 12 - octave_offset) := by
    rw [List.map_append, hlow, toLower_intReprChars]
  have hsplit : noteSplit ((noteNameOf (Int.emod n 12)).data ++
      intReprChars (Int.ediv n 12 - octave_offset)) =
      some ((noteNameOf (Int.emod n 12)).data,
        intReprChars (Int.ediv n 12 - octave_offset)) := by
    rw [hct]
    exact noteSplit_append _ _ _ hfail hc
  have hraw := noteParseRaw_eq octave_offset (noteNameOf (Int.emod n 12)).data
    (intReprChars (Int.ediv n 12 - octave_offset)) (Int.emod n 12)
    (Int.ediv n 12 - octave_offset) hmap hsplit hlook
    (pyIntOfChars_intReprChars (Int.ediv n 12 - octave_offset))
  unfold note_number note_name
  rw [hraw]
  have hn : Int.emod n 12 + (Int.ediv n 12 - octave_offset + octave_offset) * 12 = n := by
    have hm : Int.emod n 12 = n % 12 := rfl
    have hd : Int.ediv n 12 = n / 12 := rfl
    rw [hm, hd]
    omega
  rw [hn]
  show (if 0 ≤ n ∧ n < 128 then some n else none) = some n
  exact if_pos ⟨h0, h1⟩

/-- Witness for C6 at octave offset 1 and note 60 (middle C, "c4"). -/
theorem note_number_note_name_roundtrip_witness :
    (0 : Int) ≤ 60 ∧ (60 : Int) < 128 ∧
      note_number 1 false (.str (note_name 1 60)) = some 60 :=
  ⟨by norm_num, by norm_num,
    note_number_note_name_roundtrip 1 60 (by norm_num) (by norm_num)⟩

/-! ### Controller and velocity values and ranges (util.py: ctrl_value,
ctrl_limit, ctrl_range, velocity_value, velocity_limit, velocity_range) -/

/-- util.ctrl_value: integer in `[0, 128)` (`[0, 129)` with allow_end). -/
def ctrl_value (allow_end : Bool) (v : Int) : Option Int :=
  if 0 ≤ v ∧ v < (if allow_end then 129 else 128) then some v else none

/-- util.ctrl_limit: `ctrl_value(value, allow_end=True)`. -/
def ctrl_limit (v : Int) : Option Int := ctrl_value true v

/-- A Python value passed as a controller-value or velocity range: a single
integer or a two-element tuple of integers. -/
inductive IntRangeSpec
  | single (n : Int)
  | pair (a b : Int)

/-- util.ctrl_range: a single in-range value `n` yields `(n, n + 1)`; on
failure a two-element tuple is resolved entrywise via ctrl_limit; anything
else raises ValueError (modelled as `none`). -/
def ctrl_range : IntRangeSpec → Option (Int × Int)
  | .single n =>
    match ctrl_value false n with
    | some m => some (m, m + 1)
    | none => none
  | .pair a b =>
    match ctrl_limit a, ctrl_limit b with
    | some x, some y => some (x, y)
    | _, _ => none

/-- util.velocity_value: integer in `[0, 128)` (`[0, 129)` with allow_end). -/
def velocity_value (allow_end : Bool) (v : Int) : Option Int :=
  if 0 ≤ v ∧ v < (if allow_end then 129 else 128) then some v else none

/-- util.velocity_limit: `velocity_value(velocity, allow_end=True)`. -/
def velocity_limit (v : Int) : Option Int := velocity_value true v

/-- util.velocity_range: same structure as ctrl_range, via velocity_limit. -/
def velocity_range : IntRangeSpec → Option (Int × Int)
  | .single n =>
    match velocity_value false n with
    | some m => some (m, m + 1)
    | none => none
  | .pair a b =>
    match velocity_limit a, velocity_limit b with
    | some x, some y => some (x, y)
    | _, _ => none

/-! ### Port numbers (util.py: port_number) -/

/-- The errors port_number can raise; each constructor records the Python
exception and its message:
`invalidPortNumber n` is `ValueError("invalid port number %d" % port)`,
`ambiguousPortName s` is `ValueError("port name ... is ambiguous" % port)`,
`invalidPortName s` is `ValueError("invalid port name ..." % port)`. -/
inductive PortErr
  | invalidPortNumber (n : Int)
  | ambiguousPortName (s : String)
  | invalidPortName (s : String)
deriving DecidableEq

/-- A Python value passed as a port description: an `int` (possibly a
`NoDataOffset`) or a `str`. -/
inductive PortDesc
  | int (v : IntLike)
  | str (s : String)

/-- util.port_number.  For an integer: error when `actual(port) < 0`, else
the value unchanged.  For a string: a name in both configured lists at
different first indices is ambiguous; else a name found in the input list
(first) or output list resolves to `offset(index)`; else invalid. -/
def port_number (data_offset : Int) (in_ports out_ports : List String) :
    PortDesc → Except PortErr IntLike
  | .int v =>
    if actual data_offset v < 0 then .error (.invalidPortNumber v.toInt)
    else .ok v
  | .str s =>
    if s ∈ in_ports ∧ s ∈ out_ports ∧
        List.indexOf s in_ports ≠ List.indexOf s out_ports then
      .error (.ambiguousPortName s)
    else if s ∈ in_ports then
      .ok (.int (offset data_offset (.int (List.indexOf s in_ports : Int))))
    else if s ∈ out_ports then
      .ok (.int (offset data_offset (.int (List.indexOf s out_ports : Int))))
    else .error (.invalidPortName s)

/-! ### Sysex byte sequences (util.py: sysex_to_bytearray, sysex_data) -/

/-- A Python value passed as a sysex description: a `str`, a `bytearray`,
or any other sequence of integers (list, tuple, ...). -/
inductive SysexInput
  | str (s : String)
  | bytes (b : List Nat)
  | seq (l : List Nat)

/-- Python `bytearray(seq)`: every element must be in `[0, 256)` (negative
elements cannot arise here since bytes are modelled as `Nat`). -/
def toBytes? (l : List Nat) : Option (List Nat) :=
  if l.all (fun x => x < 256) then some l else none

/-- Value of one hex digit character. -/
def hexDigit? (c : Char) : Option Nat :=
  if c.isDigit then some (c.toNat - 48)
  else if 'a' ≤ c ∧ c ≤ 'f' then some (c.toNat - 87)
  else if 'A' ≤ c ∧ c ≤ 'F' then some (c.toNat - 55)
  else none

/-- Python `int(x, 16)` on a nonempty token of hex digits (tolerance of
`int` for signs, whitespace and a 0x marker is not modelled). -/
def hexVal? (cs : List Char) : Option Nat :=
  if cs ≠ [] ∧ cs.all (fun c => (hexDigit? c).isSome) then
    some (cs.foldl (fun a c => a * 16 + (hexDigit? c).getD 0) 0)
  else none

/-- The slices `sysex[i:i+2] for i in range(0, len(sysex), 2)`: chunks of
two characters, the last possibly a single character. -/
def chunk2 : List Char → List (List Char)
  | [] => []
  | [a] => [[a]]
  | a :: b :: rest => [a, b] :: chunk2 rest

/-- Python `s.split(d)` for a single delimiter character: split on every
occurrence, keeping empty tokens. -/
def splitOnChar (d : Char) : List Char → List (List Char)
  | [] => [[]]
  | c :: rest =>
    match splitOnChar d rest with
    | [] => if c = d then [[], []] else [[c]]
    | t :: ts => if c = d then [] :: t :: ts else (c :: t) :: ts

/-- `sysex.startswith('F0') or sysex.startswith('f0')`. -/
def startsF0 : List Char → Bool
  | c :: d :: _ => (c == 'F' || c == 'f') && d == '0'
  | _ => false

/-- Membership in the delimiter set `', \f\n\r\t\v'` of sysex_to_bytearray. -/
def delimChar (c : Char) : Bool :=
  c == ',' || c == ' ' || c == '\x0c' || c == '\n' ||
    c == '\r' || c == '\t' || c == '\x0b'

/-- util.sysex_to_bytearray.  A string starting with F0/f0 is parsed as
contiguous two-character hex pairs when it is shorter than 3 characters or
its 3rd character is not a delimiter, and otherwise split on its 3rd
character with each token parsed as one hex byte; any other string is
converted via character codes.  A bytearray is returned unchanged; any
other sequence is copied through `bytearray`. -/
def sysex_to_bytearray : SysexInput → Option (List Nat)
  | .str s =>
    if startsF0 s.data then
      if s.data.length < 3 ∨ delimChar (s.data.getD 2 ' ') = false then
        Option.bind (List.mapM hexVal? (chunk2 s.data)) toBytes?
      else
        Option.bind (List.mapM hexVal? (splitOnChar (s.data.getD 2 ' ') s.data)) toBytes?
    else
      toBytes? (s.data.map Char.toNat)
  | .bytes b => some b
  | .seq l => toBytes? l

/-- The validation chain of util.sysex_data on the converted bytes: length
at least 2 ("sysex too short"), leading 0xF0, trailing 0xF7 (unless
allow_partial), and every interior byte (`sysex[1:-1]`) at most 0x7F; on
success the byte sequence is returned unchanged. -/
def sysexCheck ( allow_partial : Bool) (b : List Nat) : Option (List Nat) :=
  if b.length < 2 then none
  else if b.headD 0 ≠ 0xf0 then none
  else if b.getLast? ≠ some 0xf7 ∧ allow_partial = false then none
  else if (b.drop 1).dropLast.all (fun c => c ≤ 0x7f) then some b
  else none

/-- util.sysex_data: convert with sysex_to_bytearray, then validate. -/
def sysex_data ( allow_partial : Bool) (s : SysexInput) : Option (List Nat) :=
  match sysex_to_bytearray s with
  | none => none
  | some b => sysexCheck allow_partial b

/-! ### Typed event attribute view (event.py: Types, _MidiEventEx) -/

/-- event.Types: the event type bitmask constants. -/
def Types.NOTEON : Nat := 1
def Types.NOTEOFF : Nat := 2
def Types.NOTE : Nat := Types.NOTEON ||| Types.NOTEOFF
def Types.CONTROLLER : Nat := 4
def Types.PITCHBEND : Nat := 8
def Types.PGMCHANGE : Nat := 16

/-- The raw event record owned by the engine: a type tag bitmask and the
two generic payload slots (port and channel are unused by this layer). -/
structure MidiEvent where
  type : Nat
  data1 : Int
  data2 : Int
deriving DecidableEq

/-- One of the two generic payload slots. -/
inductive Slot
  | data1
  | data2

def slotGet : Slot → MidiEvent → Int
  | .data1, ev => ev.data1
  | .data2, ev => ev.data2

def slotSet : Slot → Int → MidiEvent → MidiEvent
  | .data1, v, ev => { ev with data1 := v }
  | .data2, v, ev => { ev with data2 := v }

/-- The getter produced by _MidiEventEx.make_get_set: when
`not (self.type & typ)` the Python code prints "midi event attribute
error" (first component `true`) but still returns the slot value. -/
def event_getter (typ : Nat) (slot : Slot) (ev : MidiEvent) : Bool × Int :=
  (ev.type &&& typ == 0, slotGet slot ev)

/-- The setter produced by _MidiEventEx.make_get_set: same diagnostic
condition, and the slot is written in every case. -/
def event_setter (typ : Nat) (slot : Slot) (ev : MidiEvent) (v : Int) :
    Bool × MidiEvent :=
  (ev.type &&& typ == 0, slotSet slot v ev)

/-- The logical attributes exposed by _MidiEventEx. -/
inductive EvAttr
  | note
  | velocity
  | param
  | value

/-- Required type mask of each attribute (event.py lines 54-57). -/
def attr_mask : EvAttr → Nat
  | .note => Types.NOTE
  | .velocity => Types.NOTE
  | .param => Types.CONTROLLER
  | .value => Types.CONTROLLER ||| Types.PITCHBEND ||| Types.PGMCHANGE

/-- Payload slot of each attribute (event.py lines 54-57). -/
def attr_slot : EvAttr → Slot
  | .note => .data1
  | .velocity => .data2
  | .param => .data1
  | .value => .data2

def get_attr (a : EvAttr) (ev : MidiEvent) : Bool × Int :=
  event_getter (attr_mask a) (attr_slot a) ev

def set_attr (a : EvAttr) (ev : MidiEvent) (v : Int) : Bool × MidiEvent :=
  event_setter (attr_mask a) (attr_slot a) ev v

/-! ### Claim theorems -/

/-- C1: evaluation of event.py make_get_set at a record of type CONTROLLER.
The claim (and the spec) require an incompatible access to raise an
attribute error without touching the slot; the code instead only prints
"midi event attribute error" (first component `true`) and still reads or
writes the slot: getting `note` on a controller record returns data1, and
setting `note` overwrites data1.  A compatible access (param on a
controller record) round-trips with no diagnostic. -/
theorem event_attr_misuse_eval :
    get_attr .note { type := Types.CONTROLLER, data1 := 7, data2 := 64 } = (true, 7) ∧
    set_attr .note { type := Types.CONTROLLER, data1 := 7, data2 := 64 } 10 =
      (true, { type := Types.CONTROLLER, data1 := 10, data2 := 64 }) ∧
    get_attr .param (set_attr .param
      { type := Types.CONTROLLER, data1 := 7, data2 := 64 } 99).2 = (false, 99) :=
  ⟨rfl, rfl, rfl⟩

/-- C2 counterexample: a name present at the same index 0 of both port
lists resolves normally instead of raising the ambiguous-port-name error
the claim predicts. -/
theorem port_number_same_index_not_ambiguous :
    port_number 0 ["a"] ["a"] (.str "a") = .ok (.int 0) ∧
    (Except.ok (IntLike.int 0) : Except PortErr IntLike) ≠
      .error (.ambiguousPortName "a") :=
  ⟨rfl, fun h => Except.noConfusion h⟩

/-- C2 amended: a string port name present in both lists at different
first indices raises the ambiguous-port-name error; otherwise a name in
the input-port list resolves to its index there plus the data offset (even
when it is also in the output list, at the same index), a name only in the
output-port list resolves to its index there plus the data offset, and a
name in neither list raises the invalid-port-name error. -/
theorem port_number_name_resolution (d : Int) (ip op : List String) (s : String) :
    (s ∈ ip → s ∈ op → List.indexOf s ip ≠ List.indexOf s op →
      port_number d ip op (.str s) = .error (.ambiguousPortName s)) ∧
    (s ∈ ip → (s ∈ op → List.indexOf s ip = List.indexOf s op) →
      port_number d ip op (.str s) = .ok (.int ((List.indexOf s ip : Int) + d))) ∧
    (s ∉ ip → s ∈ op →
      port_number d ip op (.str s) = .ok (.int ((List.indexOf s op : Int) + d))) ∧
    (s ∉ ip → s ∉ op →
      port_number d ip op (.str s) = .error (.invalidPortName s)) := by
  refine ⟨?_, ?_, ?_, ?_⟩
  · intro h1 h2 h3
    show (if s ∈ ip ∧ s ∈ op ∧ List.indexOf s ip ≠ List.indexOf s op then
        Except.error (PortErr.ambiguousPortName s)
      else if s ∈ ip then
        Except.ok (IntLike.int (offset d (IntLike.int (List.indexOf s ip : Int))))
      else if s ∈ op then
        Except.ok (IntLike.int (offset d (IntLike.int (List.indexOf s op : Int))))
      else Except.error (PortErr.invalidPortName s)) = _
    rw [if_pos ⟨h1, h2, h3⟩]
  · intro h1 h2
    show (if s ∈ ip ∧ s ∈ op ∧ List.indexOf s ip ≠ List.indexOf s op then
        Except.error (PortErr.ambiguousPortName s)
      else if s ∈ ip then
        Except.ok (IntLike.int (offset d (IntLike.int (List.indexOf s ip : Int))))
      else if s ∈ op then
        Except.ok (IntLike.int (offset d (IntLike.int (List.indexOf s op : Int))))
      else Except.error (PortErr.invalidPortName s)) = _
    rw [if_neg fun hcon => hcon.2.2 (h2 hcon.2.1), if_pos h1]
    rfl
  · intro h1 h2
    show (if s ∈ ip ∧ s ∈ op ∧ List.indexOf s ip ≠ List.indexOf s op then
        Except.error (PortErr.ambiguousPortName s)
      else if s ∈ ip then
        Except.ok (IntLike.int (offset d (IntLike.int (List.indexOf s ip : Int))))
      else if s ∈ op then
        Except.ok (IntLike.int (offset d (IntLike.int (List.indexOf s op : Int))))
      else Except.error (PortErr.invalidPortName s)) = _
    rw [if_neg fun hcon => h1 hcon.1, if_neg h1, if_pos h2]
    rfl
  · intro h1 h2
    show (if s ∈ ip ∧ s ∈ op ∧ List.indexOf s ip ≠ List.indexOf s op then
        Except.error (PortErr.ambiguousPortName s)
      else if s ∈ ip then
        Except.ok (IntLike.int (offset d (IntLike.int (List.indexOf s ip : Int))))
      else if s ∈ op then
        Except.ok (IntLike.int (offset d (IntLike.int (List.indexOf s op : Int))))
      else Except.error (PortErr.invalidPortName s)) = _
    rw [if_neg fun hcon => h1 hcon.1, if_neg h1, if_neg h2]

/-- Witness for C2 at the spec scenario: name only in the output list at
index 2, data offset 1, resolves to 3. -/
theorem port_number_name_resolution_witness :
    port_number 1 [] ["x", "y", "synth"] (.str "synth") = .ok (.int 3) := by
  have h := (port_number_name_resolution 1 [] ["x", "y", "synth"] "synth").2.2.1
    (by simp) (by simp)
  exact h.trans (by rfl)

/-- C3 counterexample: `ctrl_range((0, 127))` returns `(0, 127)`, not the
`(0, 128)` the claim states (ctrl_limit passes 127 through unchanged). -/
theorem ctrl_range_inclusive_pair_counterexample :
    ctrl_range (.pair 0 127) = some (0, 127) ∧
    some ((0 : Int), (127 : Int)) ≠ some ((0 : Int), (128 : Int)) :=
  ⟨rfl, by decide⟩

/-- C3 amended: ctrl_range of the single value 7 is `(7, 8)`, and of the
tuple `(0, 127)` is `(0, 127)`. -/
theorem ctrl_range_eval :
    ctrl_range (.single 7) = some (7, 8) ∧ ctrl_range (.pair 0 127) = some (0, 127) :=
  ⟨rfl, rfl⟩

/-- C4 counterexample: with data offset 1, `offset(NoDataOffset(5))`
returns 6, not the underlying integer 5 the claim requires. -/
theorem offset_nodataoffset_counterexample :
    offset 1 (.noDataOffset 5) = 6 ∧ (6 : Int) ≠ (IntLike.noDataOffset 5).toInt :=
  ⟨rfl, by decide⟩

/-- C4 amended: util.offset adds the configured data offset to every
input, NoDataOffset-tagged integers included (there is no marker check in
offset); it is util.actual that returns the underlying integer unchanged
for NoDataOffset values. -/
theorem offset_adds_unconditionally (d m n : Int) :
    offset d (.noDataOffset m) = m + d ∧ offset d (.int n) = n + d ∧
      actual d (.noDataOffset m) = m :=
  ⟨rfl, rfl, rfl⟩

/-- C5 counterexample: with data offset 1 and the NoDataOffset value 5,
`offset(actual(n))` is 6 while `n` compares (numerically, as Python `==`
does) equal to 5, so the round trip in this direction fails. -/
theorem offset_actual_marked_counterexample :
    offset 1 (.int (actual 1 (.noDataOffset 5))) = 6 ∧
      (IntLike.noDataOffset 5).toInt = 5 ∧ (6 : Int) ≠ 5 :=
  ⟨rfl, rfl, by decide⟩

/-- C5 amended: `actual(offset(n))` returns the numeric value of `n` for
every input (offset always produces a plain integer), and on plain
integers `offset(actual(n))` is also the identity; the second direction
fails for NoDataOffset inputs whenever the offset is nonzero. -/
theorem offset_actual_inverse_plain (d n : Int) (v : IntLike) :
    actual d (.int (offset d v)) = v.toInt ∧
      offset d (.int (actual d (.int n))) = n := by
  constructor
  · show v.toInt + d - d = v.toInt
    ring
  · show n - d + d = n
    ring

/-- A byte sequence that sysexCheck accepts is returned unchanged, so the
checks also pass on the result itself. -/
theorem sysexCheck_self (ap : Bool) (b0 b : List Nat)
    (h : sysexCheck ap b0 = some b) : sysexCheck ap b = some b := by
  unfold sysexCheck at h ⊢
  by_cases c1 : b0.length < 2
  · rw [if_pos c1] at h; exact Option.noConfusion h
  rw [if_neg c1] at h
  by_cases c2 : b0.headD 0 ≠ 0xf0
  · rw [if_pos c2] at h; exact Option.noConfusion h
  rw [if_neg c2] at h
  by_cases c3 : b0.getLast? ≠ some 0xf7 ∧ ap = false
  · rw [if_pos c3] at h; exact Option.noConfusion h
  rw [if_neg c3] at h
  by_cases c4 : ((b0.drop 1).dropLast.all fun c => c ≤ 0x7f) = true
  · rw [if_pos c4] at h
    have hb : b0 = b := by injection h
    subst hb
    rw [if_neg c1, if_neg c2, if_neg c3, if_pos c4]
  · rw [if_neg c4] at h; exact Option.noConfusion h

/-- C8: sysex_data is idempotent: whenever it accepts an input and returns
the byte sequence `b`, validating `b` again succeeds and returns `b`
unchanged. -/
theorem sysex_data_idempotent (ap : Bool) (s : SysexInput) (b : List Nat)
    (h : sysex_data ap s = some b) : sysex_data ap (.bytes b) = some b := by
  unfold sysex_data at h
  split at h
  · exact Option.noConfusion h
  · show sysexCheck ap b = some b
    exact sysexCheck_self ap _ b h

/-- Witness for C8: a valid sysex given as a plain integer sequence. -/
theorem sysex_data_idempotent_witness :
    sysex_data false (.seq [240, 1, 247]) = some [240, 1, 247] ∧
      sysex_data false (.bytes [240, 1, 247]) = some [240, 1, 247] :=
  ⟨by decide,
   sysex_data_idempotent false (.seq [240, 1, 247]) [240, 1, 247] (by decide)⟩

/-- C9 counterexample: "abc" has 3 characters and a non-delimiter 3rd
character, yet it is not parsed as hex pairs (which would give
`[0xab, 0xc]`): because it does not start with F0/f0 it is converted via
character codes to `[97, 98, 99]`. -/
theorem sysex_str_nonf0_counterexample :
    sysex_to_bytearray (.str "abc") = some [97, 98, 99] ∧
    Option.bind (List.mapM hexVal? (chunk2 "abc".data)) toBytes? = some [171, 12] ∧
    some [(97 : Nat), 98, 99] ≠ some [(171 : Nat), 12] := by
  refine ⟨by decide, by decide, by decide⟩

/-- C9 amended: the 3rd-character dispatch applies only to strings
starting with "F0" or "f0": such a string is parsed as contiguous
two-character hex pairs when it has fewer than 3 characters or its 3rd
character is not a delimiter, and is otherwise split on its 3rd character
with each token parsed as one hex byte; every string not starting with
F0/f0 is converted to one byte per character via its character codes. -/
theorem sysex_str_dispatch (s : String) :
    (startsF0 s.data = false →
      sysex_to_bytearray (.str s) = toBytes? (s.data.map Char.toNat)) ∧
    (startsF0 s.data = true → s.data.length < 3 →
      sysex_to_bytearray (.str s) =
        Option.bind (List.mapM hexVal? (chunk2 s.data)) toBytes?) ∧
    (startsF0 s.data = true → 3 ≤ s.data.length →
        delimChar (s.data.getD 2 ' ') = false →
      sysex_to_bytearray (.str s) =
        Option.bind (List.mapM hexVal? (chunk2 s.data)) toBytes?) ∧
    (startsF0 s.data = true → 3 ≤ s.data.length →
        delimChar (s.data.getD 2 ' ') = true →
      sysex_to_bytearray (.str s) =
        Option.bind (List.mapM hexVal?
          (splitOnChar (s.data.getD 2 ' ') s.data)) toBytes?) := by
  refine ⟨?_, ?_, ?_, ?_⟩
  · intro h
    simp only [sysex_to_bytearray, h, Bool.false_eq_true, if_false]
  · intro h hlen
    simp only [sysex_to_bytearray, h, if_true]
    rw [if_pos (Or.inl hlen)]
  · intro h hlen hdel
    simp only [sysex_to_bytearray, h, if_true]
    rw [if_pos (Or.inr hdel)]
  · intro h hlen hdel
    simp only [sysex_to_bytearray, h, if_true]
    rw [if_neg]
    rintro (hc | hc)
    · omega
    · rw [hdel] at hc
      exact Bool.noConfusion hc

/-- Witness for C9 at a delimiter-separated sysex string. -/
theorem sysex_str_dispatch_witness :
    sysex_to_bytearray (.str "f0 01 f7") = some [240, 1, 247] := by
  have h := (sysex_str_dispatch "f0 01 f7").2.2.2 (by decide) (by decide) (by decide)
  exact h.trans (by decide)

/-- C7 counterexample: the tuple `(127, 0)` is accepted by ctrl_range and
yields `(127, 0)` with `low > high`; no ordering is enforced on
two-element specifications. -/
theorem ctrl_range_unordered_pair :
    ctrl_range (.pair 127 0) = some (127, 0) ∧ ¬((127 : Int) ≤ 0) :=
  ⟨rfl, by decide⟩

/-- C7 amended: a single value `n` accepted by the corresponding value
check always yields the pair `(n, n + 1)` (so `low < high` there), for
note_range, ctrl_range and velocity_range alike; tuple and string
specifications return the two parsed limits with no ordering guarantee. -/
theorem range_single_value_spec (octave_offset : Int) :
    (∀ n m : Int, note_number octave_offset false (.int n) = some m →
      note_range octave_offset (.int n) = some (m, m + 1)) ∧
    (∀ s m, note_number octave_offset false (.str s) = some m →
      note_range octave_offset (.str s) = some (m, m + 1)) ∧
    (∀ n m : Int, ctrl_value false n = some m →
      ctrl_range (.single n) = some (m, m + 1)) ∧
    (∀ n m : Int, velocity_value false n = some m →
      velocity_range (.single n) = some (m, m + 1)) := by
  refine ⟨?_, ?_, ?_, ?_⟩
  · intro n m h
    simp only [note_range, h]
  · intro s m h
    simp only [note_range, h]
  · intro n m h
    simp only [ctrl_range, h]
  · intro n m h
    simp only [velocity_range, h]

/-- Witness for C7 at the single controller value 99. -/
theorem range_single_value_spec_witness :
    ctrl_range (.single 99) = some (99, 100) := by
  have h := (range_single_value_spec 0).2.2.1 99 99 (by decide)
  exact h.trans (by decide)

/-- C10: an integer port is returned unchanged exactly when subtracting
the configured data offset leaves it nonnegative, and otherwise raises the
value error naming the port number; the port-name lists are arbitrary in
this statement (never consulted) and no upper bound is checked. -/
theorem port_number_int_spec (d : Int) (ip op : List String) (n : Int) :
    port_number d ip op (.int (.int n)) =
      if 0 ≤ n - d then .ok (.int n) else .error (.invalidPortNumber n) := by
  show (if actual d (.int n) < 0 then
      Except.error (PortErr.invalidPortNumber (IntLike.toInt (.int n)))
    else Except.ok (IntLike.int n)) = _
  by_cases hc : n - d < 0
  · rw [if_pos (show actual d (.int n) < 0 from hc), if_neg (by omega)]
    rfl
  · rw [if_neg (show ¬(actual d (.int n) < 0) from hc), if_pos (by omega)]
